import Mathlib

/-!
Verification development for the Bonkfun-bundler trading-bot repository.

The TypeScript sources are shallowly embedded into Lean:

* JavaScript numbers that can be `NaN` are modelled by `JsNum`
  (a rational or `nan`); arithmetic and comparisons propagate `NaN`
  exactly as IEEE comparison semantics do in JS (`NaN` compares false).
* The content of a numeric `<input>` field is modelled by `NumStr`:
  the empty string, a string parsing to a rational, or a non-empty
  string that `parseFloat` rejects (yielding `NaN`).
* Implicit reads of the ambient JS environment (the clock, the locale
  date renderer) are made explicit through a `JsWorld` record; utility
  functions that read no globals simply ignore it.
* Character classes of the source's regular expressions are embedded as
  executable predicates on `Char`.
-/

/-- Model of the ambient JS environment: the current clock reading in
milliseconds, and the locale's date rendering (`toLocaleDateString`). -/
structure JsWorld where
  now : Int
  renderDate : Int → String

/-- A JS number that may be `NaN` (infinities do not arise in the
embedded fragment). -/
inductive JsNum where
  | num (q : ℚ)
  | nan
deriving DecidableEq

namespace JsNum

/-- JS multiplication: `NaN` propagates. -/
def mul : JsNum → JsNum → JsNum
  | num a, num b => num (a * b)
  | _, _ => nan

/-- JS addition: `NaN` propagates. -/
def add : JsNum → JsNum → JsNum
  | num a, num b => num (a + b)
  | _, _ => nan

/-- JS `<=`: any comparison with `NaN` is false. -/
def jle : JsNum → JsNum → Bool
  | num a, num b => a ≤ b
  | _, _ => false

/-- JS `<`: any comparison with `NaN` is false. -/
def jlt : JsNum → JsNum → Bool
  | num a, num b => a < b
  | _, _ => false

/-- JS `>`: any comparison with `NaN` is false. -/
def jgt : JsNum → JsNum → Bool
  | num a, num b => b < a
  | _, _ => false

/-- JS `isNaN`. -/
def isNaN : JsNum → Bool
  | num _ => false
  | nan => true

end JsNum

/-- Model of the string held by a numeric input field: empty, parsing
to a rational, or non-empty junk on which `parseFloat` yields `NaN`. -/
inductive NumStr where
  | empty
  | val (q : ℚ)
  | invalid
deriving DecidableEq

/-- Embeds `parseFloat` on a `NumStr`: the empty string and junk give `NaN`. -/
def parseFloat : NumStr → JsNum
  | NumStr.empty => JsNum.nan
  | NumStr.val q => JsNum.num q
  | NumStr.invalid => JsNum.nan

/-- Models the JS expression `s || '0'`: only the empty string is falsy,
so it is replaced by the literal string `'0'` (which parses to `0`). -/
def orZeroStr : NumStr → NumStr
  | NumStr.empty => NumStr.val 0
  | s => s

/-- Truncation toward zero, as JS `parseInt` performs on the leading
integer part of a numeric string. -/
def jsTrunc (q : ℚ) : Int :=
  if q < 0 then -((-q).floor) else q.floor

/-- Embeds `parseInt` on a `NumStr`. -/
def jsParseInt : NumStr → JsNum
  | NumStr.empty => JsNum.nan
  | NumStr.val q => JsNum.num (jsTrunc q)
  | NumStr.invalid => JsNum.nan

/-- Character class `[A-Za-z0-9]` of the Bundle Creator's token-address
regex `^[A-Za-z0-9]{32,44}$`. -/
def isAlnumChar (c : Char) : Bool :=
  (65 ≤ c.toNat && c.toNat ≤ 90) || (97 ≤ c.toNat && c.toNat ≤ 122) ||
    (48 ≤ c.toNat && c.toNat ≤ 57)

/-- Character class `[1-9A-HJ-NP-Za-km-z]` (Base58: digits and letters
without `0`, `I`, `O`, `l`) of the validators' Solana-address regex. -/
def isBase58Char (c : Char) : Bool :=
  (49 ≤ c.toNat && c.toNat ≤ 57) || (65 ≤ c.toNat && c.toNat ≤ 72) ||
    (74 ≤ c.toNat && c.toNat ≤ 78) || (80 ≤ c.toNat && c.toNat ≤ 90) ||
    (97 ≤ c.toNat && c.toNat ≤ 107) || (109 ≤ c.toNat && c.toNat ≤ 122)

/-- Embeds `validateTokenAddress` from the Bundle Creator component:
`/^[A-Za-z0-9]{32,44}$/.test(address)`. -/
def validateTokenAddress (address : String) : Bool :=
  32 ≤ address.length && address.length ≤ 44 && address.data.all isAlnumChar

/-- The JS `\s` whitespace class. -/
def isJsSpace (c : Char) : Bool :=
  [9, 10, 11, 12, 13, 32, 160, 5760].contains c.toNat ||
    (8192 ≤ c.toNat && c.toNat ≤ 8202) ||
    [8232, 8233, 8239, 8287, 12288, 65279].contains c.toNat

/-- Embeds `String.prototype.trim`, embedded over the character list so that it
evaluates by kernel reduction. -/
def trimStr (s : String) : String :=
  String.mk (((s.data.dropWhile isJsSpace).reverse.dropWhile isJsSpace).reverse)

/-- Splits a character list at every occurrence of `sep` (the behaviour
of `String.prototype.split` with a single-character separator). -/
def splitChar (sep : Char) : List Char → List (List Char)
  | [] => [[]]
  | c :: cs =>
    if c = sep then [] :: splitChar sep cs
    else
      match splitChar sep cs with
      | [] => [[c]]
      | p :: ps => (c :: p) :: ps

/-- Wallet type tag from the Bundle Creator (`'dev' | 'fund' | 'trading'`). -/
inductive WalletType where
  | dev
  | fund
  | trading
deriving DecidableEq

/-- The `Wallet` record of the enhanced Bundle Creator component.
`lastUsed` is a `Date` held as milliseconds. -/
structure Wallet where
  id : String
  address : String
  balance : ℚ
  selected : Bool
  name : Option String
  wtype : WalletType
  lastUsed : Option Int
  transactionCount : Nat
deriving DecidableEq

/-- The `BundleStats` record.  `totalVolume` is accumulated from
`totalInvestment`, which can be `NaN`, so it is a `JsNum`. -/
structure BundleStats where
  totalBundles : Nat
  successfulBundles : Nat
  totalVolume : JsNum
  averageGasUsed : ℚ
deriving DecidableEq

/-- The `BundleConfig` object assembled by `handleCreateBundle`. -/
structure BundleConfig where
  tokenAddress : String
  buyAmount : JsNum
  sellPercentage : JsNum
  priorityFee : JsNum
  slippage : JsNum
  wallets : List String
  maxGasPrice : JsNum
  deadline : JsNum
  autoApprove : Bool
deriving DecidableEq

/-- The local state of the enhanced `BundleCreator` component. -/
structure BCState where
  isModalOpen : Bool
  isLoading : Bool
  error : Option String
  tokenAddress : String
  buyAmount : NumStr
  sellPercentage : NumStr
  priorityFee : NumStr
  slippage : NumStr
  maxGasPrice : NumStr
  deadline : NumStr
  autoApprove : Bool
  wallets : List Wallet
  bundleStats : BundleStats
deriving DecidableEq

/-- Embeds `selectedWallets`: `wallets.filter(w => w.selected)`. -/
def selectedWallets (st : BCState) : List Wallet :=
  st.wallets.filter (fun w => w.selected)

/-- Embeds `totalBalance`: `selectedWallets.reduce((sum, w) => sum + w.balance, 0)`. -/
def totalBalance (st : BCState) : ℚ :=
  (selectedWallets st).foldl (fun sum w => sum + w.balance) 0

/-- Embeds `totalInvestment`: `parseFloat(buyAmount || '0') * selectedWallets.length`. -/
def totalInvestment (st : BCState) : JsNum :=
  JsNum.mul (parseFloat (orZeroStr st.buyAmount))
    (JsNum.num ((selectedWallets st).length : ℚ))

/-- Embeds `totalFees`: `parseFloat(priorityFee || '0') * selectedWallets.length`. -/
def totalFees (st : BCState) : JsNum :=
  JsNum.mul (parseFloat (orZeroStr st.priorityFee))
    (JsNum.num ((selectedWallets st).length : ℚ))

/-- Embeds `validateInputs` from the enhanced Bundle Creator: returns the
collected error strings (the component's `isValid` is the emptiness of
this list). -/
def validateInputs (st : BCState) : List String :=
  (if trimStr st.tokenAddress = "" then ["Token address is required"]
   else if !validateTokenAddress st.tokenAddress then
     ["Invalid token address format"]
   else []) ++
  (if st.buyAmount = NumStr.empty ||
      JsNum.jle (parseFloat st.buyAmount) (JsNum.num 0) then
     ["Buy amount must be greater than 0"]
   else []) ++
  (if JsNum.jlt (parseFloat st.sellPercentage) (JsNum.num 0) ||
      JsNum.jgt (parseFloat st.sellPercentage) (JsNum.num 100) then
     ["Sell percentage must be between 0 and 100"]
   else []) ++
  (if (selectedWallets st).length = 0 then
     ["At least one wallet must be selected"]
   else []) ++
  (if JsNum.jgt (totalInvestment st) (JsNum.num (totalBalance st)) then
     ["Total investment exceeds available balance"]
   else [])

/-- The `BundleConfig` object literal built inside `handleCreateBundle`. -/
def mkConfig (st : BCState) : BundleConfig :=
  { tokenAddress := trimStr st.tokenAddress
    buyAmount := parseFloat st.buyAmount
    sellPercentage := parseFloat st.sellPercentage
    priorityFee := parseFloat st.priorityFee
    slippage := parseFloat st.slippage
    wallets := (selectedWallets st).map (fun w => w.address)
    maxGasPrice := parseFloat st.maxGasPrice
    deadline := jsParseInt st.deadline
    autoApprove := st.autoApprove }

/-- Embeds `handleCreateBundle` as a state transition.  `now` is the clock
reading used for `new Date()`.  The second component is the argument
passed to the `onCreateBundle` callback (`none` when the callback is
not invoked).  `setIsLoading(true)` / the `finally` block cancel out:
the handler ends with `isLoading = false` on both paths. -/
def handleCreateBundle (now : Int) (st : BCState) :
    BCState × Option BundleConfig :=
  let errors := validateInputs st
  if errors ≠ [] then
    ({ st with isLoading := false
               error := some (String.intercalate ", " errors) }, none)
  else
    ({ st with isLoading := false
               error := none
               isModalOpen := false
               wallets := st.wallets.map (fun w =>
                 if w.selected then
                   { w with transactionCount := w.transactionCount + 1
                            lastUsed := some now }
                 else w)
               bundleStats :=
                 { st.bundleStats with
                     totalBundles := st.bundleStats.totalBundles + 1
                     totalVolume := JsNum.add st.bundleStats.totalVolume
                       (totalInvestment st) } },
     some (mkConfig st))

/-- The component's initial state: the three sample wallets and the
initial form values and statistics of the source. -/
def initialBCState : BCState :=
  { isModalOpen := false
    isLoading := false
    error := none
    tokenAddress := ""
    buyAmount := NumStr.empty
    sellPercentage := NumStr.val 100
    priorityFee := NumStr.val (1 / 1000)
    slippage := NumStr.val 1
    maxGasPrice := NumStr.val (1 / 200)
    deadline := NumStr.val 30
    autoApprove := false
    wallets :=
      [{ id := "1"
         address := "7xKXtg2CW87d97TXJSDpbD5jBkheTqA83TZRuJosgAsU"
         balance := 3 / 2
         selected := true
         name := some "Dev Wallet 1"
         wtype := WalletType.dev
         lastUsed := none
         transactionCount := 0 },
       { id := "2"
         address := "9WzDXwBbmkg8ZTbNMqUxvQRAyrZzDsGYdLVL9zYtAWWM"
         balance := 23 / 10
         selected := true
         name := some "Fund Wallet 1"
         wtype := WalletType.fund
         lastUsed := none
         transactionCount := 0 },
       { id := "3"
         address := "DQyrAcCrDXQ7NeoqGgDCZwBvWDcYmFCjSb9JtteuvPpz"
         balance := 4 / 5
         selected := false
         name := some "Trading Wallet 1"
         wtype := WalletType.trading
         lastUsed := none
         transactionCount := 0 }]
    bundleStats :=
      { totalBundles := 12
        successfulBundles := 10
        totalVolume := JsNum.num (228 / 5)
        averageGasUsed := 23 / 10000 } }

/-- Reference summation from the claim: the sum of the balance fields of
exactly those wallets whose `selected` flag is true. -/
def refTotalBalance (st : BCState) : ℚ :=
  ((st.wallets.filter (fun w => w.selected)).map (fun w => w.balance)).sum

/-- Reference parse from the claim: `parseFloat` of the field, `0` when
the field is empty. -/
def refParseZeroOnEmpty : NumStr → JsNum
  | NumStr.empty => JsNum.num 0
  | s => parseFloat s

/-- Reference total investment from the claim: `parseFloat(buyAmount)`
(`0` when empty) times the number of selected wallets. -/
def refTotalInvestment (st : BCState) : JsNum :=
  JsNum.mul (refParseZeroOnEmpty st.buyAmount)
    (JsNum.num ((selectedWallets st).length : ℚ))

/-- Reference total fees from the claim: `parseFloat(priorityFee)`
(`0` when empty) times the number of selected wallets. -/
def refTotalFees (st : BCState) : JsNum :=
  JsNum.mul (refParseZeroOnEmpty st.priorityFee)
    (JsNum.num ((selectedWallets st).length : ℚ))

/-- Embeds `validators.solanaAddress` from the validators utility:
`/^[1-9A-HJ-NP-Za-km-z]{32,44}$/.test(address)`. -/
def solanaAddress (address : String) : Bool :=
  32 ≤ address.length && address.length ≤ 44 && address.data.all isBase58Char

/-- A concrete state for the C10 witness: valid token address, valid
buy amount, the sample wallets (two selected, within balance), and an
empty `sellPercentage` field. -/
def nanSellState : BCState :=
  { initialBCState with
      tokenAddress := "7xKXtg2CW87d97TXJSDpbD5jBkheTqA83TZRuJosgAsU"
      buyAmount := NumStr.val (1 / 10)
      sellPercentage := NumStr.empty }

/-- Embeds `apiUtils.retry` as a recursive function.  The impure `fn` is
modelled as a map from invocation index to outcome: `fn k` is the
result of the `(k+1)`-th invocation.  The result is the returned (or
finally rethrown) outcome together with the list of delays awaited
(`apiUtils.delay`) before each re-invocation; the number of
invocations performed is therefore the length of that list plus one. -/
def retryRun {ε : Type u} {α : Type v} (fn : Nat → Except ε α) :
    Nat → Nat → ℚ → Except ε α × List ℚ
  | k, retries, delay =>
    match fn k with
    | Except.ok v => (Except.ok v, [])
    | Except.error e =>
      match retries with
      | 0 => (Except.error e, [])
      | Nat.succ r =>
        let p := retryRun fn (k + 1) r (delay * 2)
        (p.1, delay :: p.2)
  termination_by _ retries _ => retries

/-- Outcome map for the C4 witness: the first two invocations fail,
the third succeeds with `42`. -/
def retryWitnessFn : Nat → Except Nat Nat :=
  fun i => if i < 2 then Except.error i else Except.ok 42

/-- The third-party symmetric cipher (`CryptoJS.AES` under a fixed
secret key), abstracted as any encode/decode pair that round-trips.
The wrapper code under verification is the repository's own
`EncryptionService`; the cipher itself is library code. -/
structure Cipher where
  enc : String → String
  dec : String → String
  dec_enc : ∀ s, dec (enc s) = s

/-- A JSON codec for a type, as `JSON.stringify` / `JSON.parse`
behave on JSON-serializable values: parsing inverts serialization,
and the serialization of a value is never the empty string. -/
structure JsonCodec (β : Type v) where
  stringify : β → String
  parse : String → Option β
  parse_stringify : ∀ o, parse (stringify o) = some o
  stringify_ne_empty : ∀ o, stringify o ≠ ""

namespace EncryptionService

/-- Embeds `EncryptionService.encrypt`: `CryptoJS.AES.encrypt(data, key).toString()`. -/
def encrypt (c : Cipher) (data : String) : String :=
  c.enc data

/-- Embeds `EncryptionService.decrypt`: decodes, then throws
`'Failed to decrypt data'` when the decoded plaintext is falsy
(the empty string), via the `if (!decrypted) throw` guard whose
exception the surrounding `catch` rethrows. -/
def decrypt (c : Cipher) (encryptedData : String) : Except String String :=
  let decrypted := c.dec encryptedData
  if decrypted = "" then Except.error "Failed to decrypt data"
  else Except.ok decrypted

/-- Embeds `EncryptionService.encryptObject`: `encrypt(JSON.stringify(obj))`. -/
def encryptObject {β : Type v} (c : Cipher) (j : JsonCodec β) (obj : β) :
    String :=
  encrypt c (j.stringify obj)

/-- Embeds `EncryptionService.decryptObject`: `JSON.parse(decrypt(data))`,
rethrowing `'Failed to decrypt object'` when either step throws. -/
def decryptObject {β : Type v} (c : Cipher) (j : JsonCodec β)
    (encryptedData : String) : Except String β :=
  match decrypt c encryptedData with
  | Except.error _ => Except.error "Failed to decrypt object"
  | Except.ok s =>
    match j.parse s with
    | some o => Except.ok o
    | none => Except.error "Failed to decrypt object"

end EncryptionService

/-- The identity cipher: a concrete instance of the abstract cipher,
used to exhibit behaviour that holds for every round-tripping cipher. -/
def idCipher : Cipher :=
  { enc := fun s => s
    dec := fun s => s
    dec_enc := fun _ => rfl }

/-- A trivial JSON codec (for `Unit`, serialized as `"null"`), used to
instantiate the object round trip concretely. -/
def unitCodec : JsonCodec Unit :=
  { stringify := fun _ => "null"
    parse := fun s => if s = "null" then some () else none
    parse_stringify := fun _ => by simp
    stringify_ne_empty := fun _ => by simp }

/-- Events reaching the `App` component's state: the loading screen's
`onComplete` callback, and `handleError` (from the loading screen's
`onError` or the trading interface's `onError`). -/
inductive AppEvent where
  | loadComplete
  | errorEvt (msg : String)
deriving DecidableEq

/-- The `App` component's state: `isLoading` and `appError`. -/
structure AppState where
  isLoading : Bool
  appError : Option String
deriving DecidableEq

/-- Initial `App` state: `useState(true)` and `useState(null)`. -/
def appInit : AppState :=
  { isLoading := true, appError := none }

/-- The `App` state transitions: `handleLoadComplete` sets
`isLoading := false`; `handleError` records the error and also sets
`isLoading := false`. -/
def appStep (s : AppState) : AppEvent → AppState
  | AppEvent.loadComplete => { s with isLoading := false }
  | AppEvent.errorEvt m => { isLoading := false, appError := some m }

/-- What the `App` render tree shows, by its conditional:
`isLoading ? LoadingScreen : appError ? ErrorScreen : TradingInterface`. -/
inductive AppScreen where
  | loading
  | errorScreen
  | trading
deriving DecidableEq

/-- The `App` component's render conditional. -/
def appRender (s : AppState) : AppScreen :=
  if s.isLoading then AppScreen.loading
  else
    match s.appError with
    | some _ => AppScreen.errorScreen
    | none => AppScreen.trading

/-- Runs the `App` state machine over a sequence of events. -/
def appRun (evts : List AppEvent) : AppState :=
  evts.foldl appStep appInit

/-- Embeds `generateIframeUrl`: `baseUrl ++ '?' ++ params`, with the base URL
hard-coded to `https://www.bundlerbot.fun` and the serialized
`URLSearchParams` abstracted as `query`. -/
def generateIframeUrl (query : String) : String :=
  "https://www.bundlerbot.fun" ++ "?" ++ query

namespace utils

/-- Embeds `address.slice(-n)` in JS: the last `n` characters — except that
`slice(-0)` is `slice(0)`, the whole string. -/
def jsSliceNeg (s : String) (n : Nat) : String :=
  if n = 0 then s else s.drop (s.length - n)

/-- Embeds `formatAddress` from the formatters utility.  The `JsWorld`
argument makes the (absent) dependence on ambient state explicit. -/
def formatAddress (w : JsWorld) (address : String)
    (startChars endChars : Nat) : String :=
  if address = "" ∨ address.length ≤ startChars + endChars then address
  else address.take startChars ++ "..." ++ jsSliceNeg address endChars

/-- Embeds `padStart(2, '0')`. -/
def pad2 (s : String) : String :=
  if s.length < 2 then String.mk (List.replicate (2 - s.length) '0') ++ s
  else s

/-- Embeds `formatDuration` from the formatters utility (integral seconds). -/
def formatDuration (w : JsWorld) (seconds : Nat) : String :=
  let hours := seconds / 3600
  let minutes := (seconds % 3600) / 60
  let secs := seconds % 60
  if hours > 0 then
    toString hours ++ ":" ++ pad2 (toString minutes) ++ ":" ++
      pad2 (toString secs)
  else toString minutes ++ ":" ++ pad2 (toString secs)

/-- Embeds `formatTime` from the formatters utility.  `new Date()` reads the
ambient clock (`w.now`); timestamps at least a week old are rendered
with the locale's `toLocaleDateString` (`w.renderDate`). -/
def formatTime (w : JsWorld) (timestamp : Int) : String :=
  let diffMs := w.now - timestamp
  let diffMins := Int.fdiv diffMs 60000
  let diffHours := Int.fdiv diffMs 3600000
  let diffDays := Int.fdiv diffMs 86400000
  if diffMins < 1 then "Just now"
  else if diffMins < 60 then toString diffMins ++ "m ago"
  else if diffHours < 24 then toString diffHours ++ "h ago"
  else if diffDays < 7 then toString diffDays ++ "d ago"
  else w.renderDate timestamp

/-- Interior-dot test for the email regex: the remainder after `@`
must decompose as `[^\s@]+ '.' [^\s@]+`, i.e. contain a dot at some
position other than the first and the last. -/
def hasInteriorDot (cs : List Char) : Bool :=
  ((cs.drop 1).dropLast).contains '.'

/-- Embeds `validators.email`: `/^[^\s@]+@[^\s@]+\.[^\s@]+$/.test(email)` —
exactly one `@`, a nonempty whitespace-free local part, and a
remainder with an interior dot and no whitespace. -/
def email (w : JsWorld) (s : String) : Bool :=
  match splitChar '@' s.data with
  | [a, rest] =>
    !a.isEmpty && a.all (fun c => !isJsSpace c) &&
      !rest.isEmpty && rest.all (fun c => !isJsSpace c) &&
      hasInteriorDot rest
  | _ => false

/-- Embeds `validators.positiveNumber`: `!isNaN(value) && value > 0`. -/
def positiveNumber (w : JsWorld) (value : JsNum) : Bool :=
  !value.isNaN && JsNum.jgt value (JsNum.num 0)

/-- Embeds `validators.percentage`: `!isNaN(value) && value >= 0 && value <= 100`. -/
def percentage (w : JsWorld) (value : JsNum) : Bool :=
  !value.isNaN && JsNum.jle (JsNum.num 0) value &&
    JsNum.jle value (JsNum.num 100)

/-- Embeds `validators.slippage`: `!isNaN(value) && value >= 0.1 && value <= 50`. -/
def slippage (w : JsWorld) (value : JsNum) : Bool :=
  !value.isNaN && JsNum.jle (JsNum.num (mkRat 1 10)) value &&
    JsNum.jle value (JsNum.num 50)

/-- Embeds `validators.tokenAmount`: parses the string, then
`!isNaN(num) && num > 0 && num <= 1000000`. -/
def tokenAmount (w : JsWorld) (amount : NumStr) : Bool :=
  let n := parseFloat amount
  !n.isNaN && JsNum.jgt n (JsNum.num 0) && JsNum.jle n (JsNum.num 1000000)

/-- Embeds `ValidationRule`, specialized to string field values; `pattern`
and `custom` are the rule's own functions (a regex test and a
callback returning a boolean or an error message). -/
structure ValidationRule where
  required : Bool
  minLength : Option Nat
  maxLength : Option Nat
  pattern : Option (String → Bool)
  custom : Option (String → Sum String Bool)

/-- Embeds `ValidationResult`. -/
structure ValidationResult where
  isValid : Bool
  errors : List String
deriving DecidableEq

/-- Embeds `validateField`, specialized to string values (`toString` is the
identity and truthiness is non-emptiness); a numeric `minLength` or
`maxLength` of `0` is falsy in JS, so it disables its check. -/
def validateField (w : JsWorld) (value : String)
    (rules : ValidationRule) : ValidationResult :=
  let e1 :=
    if rules.required && (value = "" ∨ trimStr value = "") then
      ["This field is required"]
    else []
  let e2 :=
    match rules.minLength with
    | some m =>
      if value ≠ "" ∧ 0 < m ∧ value.length < m then
        ["Minimum length is " ++ toString m ++ " characters"]
      else []
    | none => []
  let e3 :=
    match rules.maxLength with
    | some m =>
      if value ≠ "" ∧ 0 < m ∧ value.length > m then
        ["Maximum length is " ++ toString m ++ " characters"]
      else []
    | none => []
  let e4 :=
    match rules.pattern with
    | some p =>
      if value ≠ "" ∧ p value = false then ["Invalid format"] else []
    | none => []
  let e5 :=
    match rules.custom with
    | some f =>
      if value = "" then []
      else
        match f value with
        | Sum.inl msg => [msg]
        | Sum.inr true => []
        | Sum.inr false => ["Invalid value"]
    | none => []
  let errors := e1 ++ e2 ++ e3 ++ e4 ++ e5
  { isValid := errors.length == 0, errors := errors }

/-- Embeds `sanitizeInput`: `input.replace(/[<>\"'&]/g, '')`. -/
def sanitizeInput (w : JsWorld) (input : String) : String :=
  String.mk (input.data.filter
    (fun c => !([60, 62, 34, 39, 38].contains c.toNat)))

/-- Embeds `validateSolanaAddress` from the formatters/utilities file: the
same Base58 regex as `validators.solanaAddress` inside a `try` that
never throws. -/
def validateSolanaAddress (w : JsWorld) (address : String) : Bool :=
  32 ≤ address.length && address.length ≤ 44 &&
    address.data.all isBase58Char

/-- The JS engine's number-rendering primitives under the fixed
`'en-US'` locale: `Number.prototype.toFixed(digits)` and
`toLocaleString('en-US', { minimum/maximumFractionDigits: digits })`.
Like the AES cipher, they are engine/library code, not repository
code: they are abstracted as an arbitrary pair of pure functions of
the numeric value and the digit count. -/
structure NumberFormat where
  toFixed : ℚ → Nat → String
  toLocaleString : ℚ → Nat → String

/-- Embeds the options object of `formatNumber`; the source defaults
are `decimals = 2`, `compact = currency = percentage = false`. -/
structure FormatNumberOptions where
  decimals : Nat
  compact : Bool
  currency : Bool
  percentage : Bool
deriving DecidableEq

/-- Embeds `formatNumber` from the formatters utility.  For
`|value| ≥ 1000`, `Math.floor(Math.log10(Math.abs(value)) / 3)` is
`Nat.log 10 ⌊|value|⌋ / 3` (the floor of a real log base 10 of a
value at least 1 is the floor of the log of its integer part, and the
floor of a real divided by 3 is the floor of its floor divided by 3);
an index past the `units` array reads `undefined`, which a template
literal renders as the string `"undefined"`. -/
def formatNumber (R : NumberFormat) (w : JsWorld) (value : ℚ)
    (opts : FormatNumberOptions) : String :=
  if opts.percentage then R.toFixed (value * 100) opts.decimals ++ "%"
  else if opts.compact = true ∧ (1000 : ℚ) ≤ |value| then
    let units := ["", "K", "M", "B", "T"]
    let unitIndex := Nat.log 10 (|value|).floor.toNat / 3
    let scaledValue := value / (1000 : ℚ) ^ unitIndex
    (if opts.currency then "$" else "") ++
      R.toFixed scaledValue opts.decimals ++ units.getD unitIndex "undefined"
  else
    let formatted := R.toLocaleString value opts.decimals
    if opts.currency then "$" ++ formatted else formatted

/-- Embeds `formatTokenAmount`:
`formatNumber(amount / 10^decimals, { decimals: displayDecimals })`
(the remaining options take their defaults). -/
def formatTokenAmount (R : NumberFormat) (w : JsWorld) (amount : ℚ)
    (decimals displayDecimals : Nat) : String :=
  let actualAmount := amount / (10 : ℚ) ^ decimals
  formatNumber R w actualAmount
    { decimals := displayDecimals, compact := false, currency := false,
      percentage := false }

/-- The record returned by `formatPriceChange`. -/
structure PriceChange where
  formatted : String
  isPositive : Bool
  isNegative : Bool
deriving DecidableEq

/-- Embeds `formatPriceChange`: sign flags plus
`(isPositive ? '+' : '') + formatNumber(change, { percentage: true })`
(so `decimals` defaults to 2). -/
def formatPriceChange (R : NumberFormat) (w : JsWorld) (change : ℚ) :
    PriceChange :=
  let isPositive : Bool := decide ((0 : ℚ) < change)
  let isNegative : Bool := decide (change < 0)
  let formatted := (if isPositive then "+" else "") ++
    formatNumber R w change
      { decimals := 2, compact := false, currency := false,
        percentage := true }
  { formatted := formatted, isPositive := isPositive,
    isNegative := isNegative }

/-- The `while (size >= 1024 && unitIndex < units.length - 1)` loop of
`formatFileSize`: divide by 1024 and advance the unit, at most four
times (`units.length - 1 = 4`). -/
def fileSizeLoop (size : ℚ) (unitIndex : Nat) : ℚ × Nat :=
  if h : 1024 ≤ size ∧ unitIndex < 4 then
    fileSizeLoop (size / 1024) (unitIndex + 1)
  else (size, unitIndex)
  termination_by 4 - unitIndex
  decreasing_by
    simp_wf
    obtain ⟨-, h2⟩ := h
    omega

/-- Embeds `formatFileSize`: run the unit loop from the byte count,
then `` `${size.toFixed(1)} ${units[unitIndex]}` ``. -/
def formatFileSize (R : NumberFormat) (w : JsWorld) (bytes : ℚ) : String :=
  let units := ["B", "KB", "MB", "GB", "TB"]
  let p := fileSizeLoop bytes 0
  R.toFixed p.1 1 ++ " " ++ units.getD p.2 "undefined"

/-- Embeds `validateForm`: fold over the rule entries in key order
(`Object.keys` preserves insertion order), validating `data[field]`
per field and collecting `` `${field}: ${error}` `` messages for the
invalid ones.  `data` maps a field name to its string value (an
absent field's `undefined` behaves as the empty string here: both are
falsy, so only the `required` check can fire). -/
def validateForm (w : JsWorld) (data : String → String)
    (rules : List (String × ValidationRule)) : ValidationResult :=
  let allErrors := rules.foldl (fun acc fr =>
    let fieldResult := validateField w (data fr.1) fr.2
    if fieldResult.isValid then acc
    else acc ++ fieldResult.errors.map (fun e => fr.1 ++ ": " ++ e)) []
  { isValid := allErrors.length == 0, errors := allErrors }

end utils

/-- A fixed ambient environment used to instantiate world-taking
functions concretely. -/
def worldZero : JsWorld :=
  { now := 0, renderDate := fun _ => "" }

/-- The claim's reference for `formatAddress`: unchanged when empty or
short, otherwise first `startChars` characters, `'...'`, and the last
`endChars` characters. -/
def formatAddressSpec (address : String) (startChars endChars : Nat) :
    String :=
  if address = "" ∨ address.length ≤ startChars + endChars then address
  else address.take startChars ++ "..." ++
    address.drop (address.length - endChars)

/-- Embeds `LogLevel` enum: `DEBUG = 0, INFO = 1, WARN = 2, ERROR = 3`. -/
inductive LogLevel where
  | debug
  | info
  | warn
  | error
deriving DecidableEq

/-- The numeric value of a `LogLevel`. -/
def LogLevel.toNat : LogLevel → Nat
  | LogLevel.debug => 0
  | LogLevel.info => 1
  | LogLevel.warn => 2
  | LogLevel.error => 3

/-- A `LogEntry`; `data` is held as its serialized form. -/
structure LogEntry where
  timestamp : Int
  level : LogLevel
  message : String
  data : Option String
  source : Option String
deriving DecidableEq

/-- The `Logger`'s mutable state: its threshold level and buffer. -/
structure LoggerState where
  level : LogLevel
  logs : List LogEntry
deriving DecidableEq

/-- Embeds `maxLogs = 1000`. -/
def maxLogs : Nat := 1000

/-- Embeds `shouldLog`: `level >= this.level`. -/
def shouldLog (s : LoggerState) (lvl : LogLevel) : Bool :=
  s.level.toNat ≤ lvl.toNat

/-- The last `n` elements of a list (`slice(-n)` for `n > 0`). -/
def lastN {α : Type u} (n : Nat) (l : List α) : List α :=
  l.drop (l.length - n)

/-- Embeds `addLog`: push the entry, then keep only the last `maxLogs`
entries (`this.logs.slice(-this.maxLogs)`) when over the cap. -/
def addLog (s : LoggerState) (e : LogEntry) : LoggerState :=
  let logs := s.logs ++ [e]
  { s with logs := if logs.length > maxLogs then lastN maxLogs logs else logs }

/-- Operations on the logger: one of the four level methods (carrying
the entry data and the ambient timestamp), `clearLogs`, `setLevel`. -/
inductive LogOp where
  | log (lvl : LogLevel) (ts : Int) (msg : String)
      (d : Option String) (src : Option String)
  | clear
  | setLevel (lvl : LogLevel)

/-- One logger operation: the level methods early-return unless
`shouldLog`, then `addLog`; `clearLogs` empties the buffer; `setLevel`
replaces the threshold. -/
def logStep (s : LoggerState) : LogOp → LoggerState
  | LogOp.log lvl ts msg d src =>
    if shouldLog s lvl then
      addLog s { timestamp := ts, level := lvl, message := msg,
                 data := d, source := src }
    else s
  | LogOp.clear => { s with logs := [] }
  | LogOp.setLevel lvl => { s with level := lvl }

/-- Runs the logger over a sequence of operations. -/
def logRun (s : LoggerState) (ops : List LogOp) : LoggerState :=
  ops.foldl logStep s

/-- Reference recorder: the same operational behaviour but with an
unbounded buffer, so its buffer is exactly the entries recorded since
the last `clearLogs`, in recording order. -/
def recStep (s : LoggerState) : LogOp → LoggerState
  | LogOp.log lvl ts msg d src =>
    if shouldLog s lvl then
      { s with logs := s.logs ++
          [{ timestamp := ts, level := lvl, message := msg,
             data := d, source := src }] }
    else s
  | LogOp.clear => { s with logs := [] }
  | LogOp.setLevel lvl => { s with level := lvl }

/-- Runs the reference recorder. -/
def recRun (s : LoggerState) (ops : List LogOp) : LoggerState :=
  ops.foldl recStep s

/-- Embeds `getLogs`: with a level, the buffered entries of at least that
level, in order; without, a copy of the buffer. -/
def getLogs (s : LoggerState) (lvl : Option LogLevel) : List LogEntry :=
  match lvl with
  | some l => s.logs.filter (fun e => l.toNat ≤ e.level.toNat)
  | none => s.logs

lemma foldl_add_balance (l : List Wallet) (a : ℚ) :
    l.foldl (fun sum w => sum + w.balance) a =
      a + (l.map (fun w => w.balance)).sum := by
  induction l generalizing a with
  | nil => simp
  | cons w ws ih => simp [List.foldl_cons, ih, add_assoc]

lemma orZeroStr_parse (s : NumStr) :
    parseFloat (orZeroStr s) = refParseZeroOnEmpty s := by
  cases s <;> rfl

/-- C1: the displayed aggregates of the Bundle Creator agree with the
reference summation: `totalBalance` is the sum of the balances of the
selected wallets, and `totalInvestment` / `totalFees` are the parsed
buy amount / priority fee (zero when the field is empty) times the
number of selected wallets. -/
theorem bundleCreator_totals_correct (st : BCState) :
    totalBalance st = refTotalBalance st ∧
    totalInvestment st = refTotalInvestment st ∧
    totalFees st = refTotalFees st := by
  refine ⟨?_, ?_, ?_⟩
  · simp [totalBalance, refTotalBalance, selectedWallets, foldl_add_balance]
  · simp [totalInvestment, refTotalInvestment, orZeroStr_parse]
  · simp [totalFees, refTotalFees, orZeroStr_parse]

lemma base58_isAlnum (c : Char) (h : isBase58Char c = true) :
    isAlnumChar c = true := by
  simp only [isBase58Char, Bool.or_eq_true, Bool.and_eq_true,
    decide_eq_true_eq] at h
  simp only [isAlnumChar, Bool.or_eq_true, Bool.and_eq_true,
    decide_eq_true_eq]
  omega

/-- C2 counterexample: a string of 32 `'0'` characters is accepted by
the Bundle Creator's `validateTokenAddress` but rejected by the Base58
validator `validators.solanaAddress`, so the two checks are not equal
as Boolean functions on strings. -/
theorem tokenAddress_vs_solanaAddress_counterexample :
    validateTokenAddress "00000000000000000000000000000000" = true ∧
    solanaAddress "00000000000000000000000000000000" = false := by
  constructor <;> decide

/-- C2 (amended): `validators.solanaAddress` refines
`validateTokenAddress`: every string the Base58 validator accepts, the
Bundle Creator's alphanumeric check also accepts; the converse fails,
so the alphanumeric check is strictly coarser. -/
theorem solanaAddress_refines_tokenAddress (s : String)
    (h : solanaAddress s = true) : validateTokenAddress s = true := by
  simp only [solanaAddress, Bool.and_eq_true, List.all_eq_true] at h
  obtain ⟨⟨h1, h2⟩, h3⟩ := h
  simp only [validateTokenAddress, Bool.and_eq_true, List.all_eq_true]
  exact ⟨⟨h1, h2⟩, fun c hc => base58_isAlnum c (h3 c hc)⟩

/-- C2 witness: the refinement theorem applied to a concrete Base58
address from the sample wallet list. -/
theorem solanaAddress_refines_tokenAddress_witness :
    solanaAddress "7xKXtg2CW87d97TXJSDpbD5jBkheTqA83TZRuJosgAsU" = true ∧
    validateTokenAddress "7xKXtg2CW87d97TXJSDpbD5jBkheTqA83TZRuJosgAsU"
      = true :=
  ⟨by decide, solanaAddress_refines_tokenAddress _ (by decide)⟩

/-- C3: when `validateInputs` reports errors, `handleCreateBundle` only
sets the error message (the errors joined with `', '`): the callback is
not invoked, the modal stays as it was, and wallets and bundle
statistics are untouched.  The handler is only invocable from an idle
component (`isLoading = false`; the button is disabled otherwise), so
the transient `setIsLoading(true)` / `finally` pair leaves `isLoading`
unchanged as well. -/
theorem handleCreateBundle_validation_error (now : Int) (st : BCState)
    (hval : validateInputs st ≠ []) (hload : st.isLoading = false) :
    handleCreateBundle now st =
      ({ st with
          error := some (String.intercalate ", " (validateInputs st)) },
        none) := by
  unfold handleCreateBundle
  rw [if_pos hval]
  cases st
  simp_all

/-- C3 witness: from the initial component state (empty token address
and buy amount), the handler records exactly the joined error message
and changes nothing else. -/
theorem handleCreateBundle_validation_error_witness :
    handleCreateBundle 0 initialBCState =
      ({ initialBCState with
          error :=
            some (String.intercalate ", " (validateInputs initialBCState)) },
        none) :=
  handleCreateBundle_validation_error 0 initialBCState (by decide) rfl

/-- C10: a `sellPercentage` that does not parse (`parseFloat` gives
`NaN`, e.g. on the empty string) raises no sell-percentage range error
in `validateInputs`; consequently, when the remaining checks pass, the
assembled configuration — whose `sellPercentage` is `NaN` — is
delivered to the `onCreateBundle` callback. -/
theorem nan_sellPercentage_passes_validation (st : BCState)
    (h : parseFloat st.sellPercentage = JsNum.nan) :
    "Sell percentage must be between 0 and 100" ∉ validateInputs st ∧
    (validateInputs st = [] → ∀ now : Int,
      (handleCreateBundle now st).2 = some (mkConfig st) ∧
      (mkConfig st).sellPercentage = JsNum.nan) := by
  constructor
  · intro hmem
    unfold validateInputs at hmem
    rw [h] at hmem
    have h3 : ¬((JsNum.jlt JsNum.nan (JsNum.num 0) ||
        JsNum.jgt JsNum.nan (JsNum.num 100)) = true) := by decide
    rw [if_neg h3] at hmem
    simp only [List.append_nil, List.mem_append] at hmem
    rcases hmem with ((hm | hm) | hm) | hm
    · split at hm
      · exact absurd hm (by decide)
      · split at hm <;> exact absurd hm (by decide)
    · split at hm <;> exact absurd hm (by decide)
    · split at hm <;> exact absurd hm (by decide)
    · split at hm <;> exact absurd hm (by decide)
  · intro hvalid now
    refine ⟨?_, ?_⟩
    · simp [handleCreateBundle, hvalid]
    · simp [mkConfig, h]

lemma validateInputs_nanSellState : validateInputs nanSellState = [] := by
  with_unfolding_all decide

/-- C10 witness: on `nanSellState` every remaining check passes, and the
delivered configuration's `sellPercentage` is `NaN`. -/
theorem nan_sellPercentage_passes_validation_witness :
    (handleCreateBundle 0 nanSellState).2 = some (mkConfig nanSellState) ∧
    (mkConfig nanSellState).sellPercentage = JsNum.nan :=
  (nan_sellPercentage_passes_validation nanSellState rfl).2
    validateInputs_nanSellState 0

lemma retryRun_ok {ε : Type u} {α : Type v} {fn : Nat → Except ε α}
    {k : Nat} {v : α} (h : fn k = Except.ok v) (retries : Nat) (delay : ℚ) :
    retryRun fn k retries delay = (Except.ok v, []) := by
  conv_lhs => unfold retryRun
  rw [h]

lemma retryRun_error_zero {ε : Type u} {α : Type v} {fn : Nat → Except ε α}
    {k : Nat} {e : ε} (h : fn k = Except.error e) (delay : ℚ) :
    retryRun fn k 0 delay = (Except.error e, []) := by
  conv_lhs => unfold retryRun
  rw [h]

lemma retryRun_error_succ {ε : Type u} {α : Type v} {fn : Nat → Except ε α}
    {k : Nat} {e : ε} (h : fn k = Except.error e) (r : Nat) (delay : ℚ) :
    retryRun fn k (r + 1) delay =
      ((retryRun fn (k + 1) r (delay * 2)).1,
        delay :: (retryRun fn (k + 1) r (delay * 2)).2) := by
  conv_lhs => unfold retryRun
  rw [h]

lemma retryRun_length_le {ε : Type u} {α : Type v} (fn : Nat → Except ε α) :
    ∀ (retries k : Nat) (delay : ℚ),
      (retryRun fn k retries delay).2.length ≤ retries := by
  intro retries
  induction retries with
  | zero =>
    intro k delay
    cases h : fn k with
    | ok v => rw [retryRun_ok h]; simp
    | error e => rw [retryRun_error_zero h]; simp
  | succ r ih =>
    intro k delay
    cases h : fn k with
    | ok v => rw [retryRun_ok h]; simp
    | error e =>
      rw [retryRun_error_succ h]
      simpa using ih (k + 1) (delay * 2)

lemma retryRun_waits {ε : Type u} {α : Type v} (fn : Nat → Except ε α) :
    ∀ (retries k : Nat) (delay : ℚ) (i : Nat) (x : ℚ),
      (retryRun fn k retries delay).2[i]? = some x → x = delay * 2 ^ i := by
  intro retries
  induction retries with
  | zero =>
    intro k delay i x hx
    cases h : fn k with
    | ok v => rw [retryRun_ok h] at hx; simp at hx
    | error e => rw [retryRun_error_zero h] at hx; simp at hx
  | succ r ih =>
    intro k delay i x hx
    cases h : fn k with
    | ok v => rw [retryRun_ok h] at hx; simp at hx
    | error e =>
      rw [retryRun_error_succ h] at hx
      cases i with
      | zero =>
        simp at hx
        simp [hx.symm]
      | succ i =>
        simp only [List.getElem?_cons_succ] at hx
        rw [ih (k + 1) (delay * 2) i x hx]
        ring

lemma retryRun_success {ε : Type u} {α : Type v} (fn : Nat → Except ε α) :
    ∀ (j retries k : Nat) (delay : ℚ) (v : α), j ≤ retries →
      fn (k + j) = Except.ok v →
      (∀ i, i < j → ∃ e, fn (k + i) = Except.error e) →
      (retryRun fn k retries delay).1 = Except.ok v ∧
      (retryRun fn k retries delay).2.length = j := by
  intro j
  induction j with
  | zero =>
    intro retries k delay v _ hok _
    rw [retryRun_ok (by simpa using hok)]
    simp
  | succ j ih =>
    intro retries k delay v hle hok herr
    obtain ⟨e, he⟩ := herr 0 (Nat.succ_pos j)
    obtain ⟨r, rfl⟩ : ∃ r, retries = r + 1 :=
      ⟨retries - 1, by omega⟩
    rw [retryRun_error_succ (by simpa using he)]
    have hok2 : fn (k + 1 + j) = Except.ok v := by
      rw [show k + 1 + j = k + (j + 1) by omega]
      exact hok
    have herr2 : ∀ i, i < j → ∃ e2, fn (k + 1 + i) = Except.error e2 := by
      intro i hi
      obtain ⟨e2, he2⟩ := herr (i + 1) (by omega)
      exact ⟨e2, by rw [show k + 1 + i = k + (i + 1) by omega]; exact he2⟩
    obtain ⟨h1, h2⟩ := ih r (k + 1) (delay * 2) v (by omega) hok2 herr2
    exact ⟨h1, by simp [h2]⟩

lemma retryRun_all_fail {ε : Type u} {α : Type v} (fn : Nat → Except ε α) :
    ∀ (retries k : Nat) (delay : ℚ) (e : ε),
      (∀ i, i ≤ retries → ∃ e2, fn (k + i) = Except.error e2) →
      fn (k + retries) = Except.error e →
      (retryRun fn k retries delay).1 = Except.error e := by
  intro retries
  induction retries with
  | zero =>
    intro k delay e _ hlast
    rw [retryRun_error_zero (by simpa using hlast)]
  | succ r ih =>
    intro k delay e hall hlast
    obtain ⟨e0, he0⟩ := hall 0 (Nat.zero_le _)
    rw [retryRun_error_succ (by simpa using he0)]
    apply ih (k + 1) (delay * 2) e
    · intro i hi
      obtain ⟨e2, he2⟩ := hall (i + 1) (by omega)
      exact ⟨e2, by rw [show k + 1 + i = k + (i + 1) by omega]; exact he2⟩
    · rw [show k + 1 + r = k + (r + 1) by omega]
      exact hlast

/-- C4: behaviour of `apiUtils.retry(fn, n, d)`, with `fn` modelled as
the per-invocation outcome map.  The second component of `retryRun` is
the list of awaited delays, so invocations performed = delays + 1:
(1) at most `n` delays occur, hence `fn` is invoked at most `n + 1`
times; (2) the delay before the `(i+1)`-th re-invocation is `d * 2^i`
(exponential backoff, doubling); (3) if the `(j+1)`-th invocation is
the first to succeed (`j ≤ n`), its value is returned after exactly
`j` delays, i.e. with no further invocations; (4) if every invocation
fails, the error of the last (`(n+1)`-th) invocation is rethrown. -/
theorem apiUtils_retry_spec {ε : Type u} {α : Type v}
    (fn : Nat → Except ε α) (n : Nat) (d : ℚ) :
    (retryRun fn 0 n d).2.length ≤ n ∧
    (∀ i x, (retryRun fn 0 n d).2[i]? = some x → x = d * 2 ^ i) ∧
    (∀ j v, j ≤ n → fn j = Except.ok v →
      (∀ i, i < j → ∃ e, fn i = Except.error e) →
      (retryRun fn 0 n d).1 = Except.ok v ∧
      (retryRun fn 0 n d).2.length = j) ∧
    (∀ e, (∀ i, i ≤ n → ∃ e2, fn i = Except.error e2) →
      fn n = Except.error e →
      (retryRun fn 0 n d).1 = Except.error e) := by
  refine ⟨retryRun_length_le fn n 0 d, fun i x hx => retryRun_waits fn n 0 d i x hx, ?_, ?_⟩
  · intro j v hle hok herr
    exact retryRun_success fn j n 0 d v hle (by simpa using hok)
      (by simpa using herr)
  · intro e hall hlast
    exact retryRun_all_fail fn n 0 d e (by simpa using hall)
      (by simpa using hlast)

/-- C4 witness: with `retries = 3` and initial delay `1`, the first
success (third invocation) is returned after exactly two backoff
delays. -/
theorem apiUtils_retry_spec_witness :
    (retryRun retryWitnessFn 0 3 1).1 = Except.ok 42 ∧
    (retryRun retryWitnessFn 0 3 1).2.length = 2 :=
  (apiUtils_retry_spec retryWitnessFn 3 1).2.2.1 2 42 (by decide) rfl
    (fun i hi => ⟨i, by simp [retryWitnessFn, hi]⟩)

/-- C5 counterexample: on the empty string the round trip throws —
`decrypt` rejects the falsy plaintext `''` with
`'Failed to decrypt data'` — so `decrypt(encrypt(s))` does not return
`s` for every string `s` (shown with the identity cipher, which
satisfies the cipher round-trip law). -/
theorem encrypt_decrypt_empty_string_throws :
    EncryptionService.decrypt idCipher
        (EncryptionService.encrypt idCipher "") =
      Except.error "Failed to decrypt data" ∧
    EncryptionService.decrypt idCipher
        (EncryptionService.encrypt idCipher "") ≠
      Except.ok "" := by
  constructor
  · rfl
  · intro hcontra
    simp [EncryptionService.decrypt, EncryptionService.encrypt, idCipher]
      at hcontra

/-- C5 (amended): for every cipher satisfying the round-trip law and
every string `s` other than the empty string,
`decrypt(encrypt(s)) = s` without throwing; and for every
JSON-serializable object (whose serialization is a nonempty string, as
JSON serializations always are), `decryptObject(encryptObject(o))`
returns `o`.  The empty string is the sole exception: `decrypt`
rejects the falsy plaintext. -/
theorem encrypt_decrypt_roundtrip (c : Cipher) :
    (∀ s : String, s ≠ "" →
      EncryptionService.decrypt c (EncryptionService.encrypt c s) =
        Except.ok s) ∧
    (∀ (β : Type v) (j : JsonCodec β) (o : β),
      EncryptionService.decryptObject c j
          (EncryptionService.encryptObject c j o) =
        Except.ok o) := by
  constructor
  · intro s hs
    simp [EncryptionService.decrypt, EncryptionService.encrypt, c.dec_enc, hs]
  · intro β j o
    have hne := j.stringify_ne_empty o
    simp [EncryptionService.decryptObject, EncryptionService.encryptObject,
      EncryptionService.decrypt, EncryptionService.encrypt, c.dec_enc, hne,
      j.parse_stringify]

/-- C5 witness: the amended round trip at the identity cipher, the
one-character string `"a"`, and the trivial codec. -/
theorem encrypt_decrypt_roundtrip_witness :
    EncryptionService.decrypt idCipher
        (EncryptionService.encrypt idCipher "a") = Except.ok "a" ∧
    EncryptionService.decryptObject idCipher unitCodec
        (EncryptionService.encryptObject idCipher unitCodec ()) =
      Except.ok () :=
  ⟨(encrypt_decrypt_roundtrip.{0} idCipher).1 "a" (by decide),
    (encrypt_decrypt_roundtrip.{0} idCipher).2 Unit unitCodec ()⟩

lemma appRender_trading_mem :
    ∀ (tr : List AppEvent) (s : AppState),
      appRender (tr.foldl appStep s) = AppScreen.trading →
      AppEvent.loadComplete ∈ tr ∨ appRender s = AppScreen.trading := by
  intro tr
  induction tr with
  | nil => intro s h; exact Or.inr h
  | cons e tr ih =>
    intro s h
    rcases ih (appStep s e) h with hmem | hrend
    · exact Or.inl (List.mem_cons_of_mem _ hmem)
    · cases e with
      | loadComplete => exact Or.inl (List.mem_cons_self _ _)
      | errorEvt m => simp [appStep, appRender] at hrend

lemma appStep_isLoading_false :
    ∀ (tr : List AppEvent) (s : AppState), s.isLoading = false →
      (tr.foldl appStep s).isLoading = false := by
  intro tr
  induction tr with
  | nil => intro s h; exact h
  | cons e tr ih =>
    intro s h
    cases e <;> exact ih _ rfl

/-- C6: the external trading iframe (whose URL starts with
`https://www.bundlerbot.fun`) is never shown before loading
completes: the initial state renders the loading screen; any event
trace that ends on the trading iframe contains the loading screen's
`onComplete` transition; and once the loading stage has completed
(anything other than the loading screen is rendered), no further
events ever return the `App` to the loading screen. -/
theorem app_iframe_after_loading :
    appRender (appRun []) = AppScreen.loading ∧
    (∀ tr, appRender (appRun tr) = AppScreen.trading →
      AppEvent.loadComplete ∈ tr) ∧
    (∀ tr tr', appRender (appRun tr) ≠ AppScreen.loading →
      appRender (appRun (tr ++ tr')) ≠ AppScreen.loading) ∧
    (∀ query, ∃ rest,
      generateIframeUrl query = "https://www.bundlerbot.fun" ++ rest) := by
  refine ⟨rfl, ?_, ?_, ?_⟩
  · intro tr h
    rcases appRender_trading_mem tr appInit h with hmem | hrend
    · exact hmem
    · simp [appInit, appRender] at hrend
  · intro tr tr' h
    have hload : (appRun tr).isLoading = false := by
      by_contra hcontra
      have : (appRun tr).isLoading = true := by
        cases hb : (appRun tr).isLoading
        · exact absurd hb hcontra
        · rfl
      exact h (by simp [appRender, this])
    have : (appRun (tr ++ tr')).isLoading = false := by
      rw [appRun, List.foldl_append]
      exact appStep_isLoading_false tr' (appRun tr) hload
    simp [appRender, this]
    split <;> simp
  · intro query
    exact ⟨"?" ++ query, by rw [generateIframeUrl, String.append_assoc]⟩

/-- C6 witness: after the `onComplete` event the iframe is rendered
and the trace contains `loadComplete`; a subsequent error event still
never returns to the loading screen. -/
theorem app_iframe_after_loading_witness :
    AppEvent.loadComplete ∈ [AppEvent.loadComplete] ∧
    appRender (appRun ([AppEvent.loadComplete] ++ [AppEvent.errorEvt "x"]))
      ≠ AppScreen.loading :=
  ⟨app_iframe_after_loading.2.1 [AppEvent.loadComplete] rfl,
    app_iframe_after_loading.2.2.1 [AppEvent.loadComplete]
      [AppEvent.errorEvt "x"] (by decide)⟩

/-- C7 counterexample: with `endChars = 0` and an address longer than
`startChars`, JS `slice(-0)` is `slice(0)`, so the code appends the
whole address after `'...'` instead of the last zero characters. -/
theorem formatAddress_endChars_zero_counterexample :
    utils.formatAddress worldZero "abcde" 4 0 = "abcd...abcde" ∧
    formatAddressSpec "abcde" 4 0 = "abcd..." ∧
    utils.formatAddress worldZero "abcde" 4 0 ≠
      formatAddressSpec "abcde" 4 0 := by
  refine ⟨by decide, by decide, by decide⟩

/-- C7 (amended): for every address and counts with `endChars ≥ 1`,
`formatAddress` returns the address unchanged when it is empty or no
longer than `startChars + endChars`, and otherwise the first
`startChars` characters, `'...'`, and the last `endChars` characters;
at `endChars = 0` the code instead appends the entire address
(`slice(-0)` quirk), as the counterexample shows. -/
theorem formatAddress_spec_correct (w : JsWorld) (address : String)
    (startChars endChars : Nat) (h : 1 ≤ endChars) :
    utils.formatAddress w address startChars endChars =
      formatAddressSpec address startChars endChars := by
  rw [utils.formatAddress, formatAddressSpec]
  split_ifs
  · rfl
  · rw [utils.jsSliceNeg, if_neg (by omega)]

/-- C7 witness: the amended statement at the defaults
`startChars = endChars = 4`, on a ten-character address. -/
theorem formatAddress_spec_correct_witness :
    utils.formatAddress worldZero "1234567890" 4 4 =
      formatAddressSpec "1234567890" 4 4 :=
  formatAddress_spec_correct worldZero "1234567890" 4 4 (by decide)

/-- C8 counterexample: `formatTime` is not independent of the current
time: called with the same timestamp argument under two clock
readings it returns different strings (`'Just now'` vs `'2m ago'`),
so not every exported formatter is a pure function of its arguments. -/
theorem formatTime_depends_on_clock :
    utils.formatTime { now := 0, renderDate := fun _ => "" } 0 =
      "Just now" ∧
    utils.formatTime { now := 120000, renderDate := fun _ => "" } 0 =
      "2m ago" ∧
    utils.formatTime { now := 0, renderDate := fun _ => "" } 0 ≠
      utils.formatTime { now := 120000, renderDate := fun _ => "" } 0 := by
  refine ⟨by decide, by decide, by decide⟩

/-- C8 (amended): every function exported by the validators and
formatters utilities — `validateField`, `validateForm`, the
`validators` entries (`email`, `solanaAddress`, `positiveNumber`,
`percentage`, `slippage`, `tokenAmount`), `formatNumber`,
`formatTokenAmount`, `formatAddress`, `formatDuration`,
`formatFileSize`, `formatPriceChange`, `sanitizeInput`,
`validateSolanaAddress` — is pure and deterministic, with the sole
exception of `formatTime`: under any two ambient environments, two
invocations on the same arguments return equal results (for the
numeric formatters, with any fixed engine rendering primitives
`toFixed` / `toLocaleString`, which are themselves pure functions of
the value and digit count); `validators.solanaAddress` coincides with
the environment-ignoring `validateSolanaAddress`.  `formatTime` reads
the clock (and, for week-old timestamps, the locale date renderer):
it is deterministic only once `now` and the date renderer are fixed. -/
theorem utils_env_independence :
    (∀ w1 w2 s, utils.email w1 s = utils.email w2 s) ∧
    (∀ w1 w2 v, utils.positiveNumber w1 v = utils.positiveNumber w2 v) ∧
    (∀ w1 w2 v, utils.percentage w1 v = utils.percentage w2 v) ∧
    (∀ w1 w2 v, utils.slippage w1 v = utils.slippage w2 v) ∧
    (∀ w1 w2 a, utils.tokenAmount w1 a = utils.tokenAmount w2 a) ∧
    (∀ w1 w2 v r, utils.validateField w1 v r = utils.validateField w2 v r) ∧
    (∀ w1 w2 d r, utils.validateForm w1 d r = utils.validateForm w2 d r) ∧
    (∀ w1 w2 s, utils.sanitizeInput w1 s = utils.sanitizeInput w2 s) ∧
    (∀ w1 w2 s,
      utils.validateSolanaAddress w1 s = utils.validateSolanaAddress w2 s) ∧
    (∀ w s, utils.validateSolanaAddress w s = solanaAddress s) ∧
    (∀ w1 w2 a n m,
      utils.formatAddress w1 a n m = utils.formatAddress w2 a n m) ∧
    (∀ w1 w2 n, utils.formatDuration w1 n = utils.formatDuration w2 n) ∧
    (∀ R w1 w2 v o, utils.formatNumber R w1 v o = utils.formatNumber R w2 v o) ∧
    (∀ R w1 w2 a d dd, utils.formatTokenAmount R w1 a d dd =
      utils.formatTokenAmount R w2 a d dd) ∧
    (∀ R w1 w2 c, utils.formatPriceChange R w1 c =
      utils.formatPriceChange R w2 c) ∧
    (∀ R w1 w2 b, utils.formatFileSize R w1 b = utils.formatFileSize R w2 b) ∧
    (∀ w1 w2 ts, w1.now = w2.now → w1.renderDate = w2.renderDate →
      utils.formatTime w1 ts = utils.formatTime w2 ts) := by
  refine ⟨fun _ _ _ => rfl, fun _ _ _ => rfl, fun _ _ _ => rfl,
    fun _ _ _ => rfl, fun _ _ _ => rfl, fun _ _ _ _ => rfl,
    fun _ _ _ _ => rfl, fun _ _ _ => rfl, fun _ _ _ => rfl,
    fun _ _ => rfl, fun _ _ _ _ _ => rfl, fun _ _ _ => rfl,
    fun _ _ _ _ _ => rfl, fun _ _ _ _ _ _ => rfl, fun _ _ _ _ => rfl,
    fun _ _ _ _ => rfl, ?_⟩
  intro w1 w2 ts hn hr
  cases w1
  cases w2
  simp only at hn hr
  rw [utils.formatTime, utils.formatTime]
  simp only [hn, hr]

/-- C8 witness: the environment-independence statement instantiated at
two concrete environments for `email`, and the conditional
determinism of `formatTime` at a fixed clock. -/
theorem utils_env_independence_witness :
    utils.email { now := 0, renderDate := fun _ => "" } "a@b.c" =
      utils.email { now := 5, renderDate := fun _ => "x" } "a@b.c" ∧
    utils.formatTime { now := 7, renderDate := fun _ => "" } 3 =
      utils.formatTime { now := 7, renderDate := fun _ => "" } 3 := by
  obtain ⟨h1, -, -, -, -, -, -, -, -, -, -, -, -, -, -, -, hT⟩ :=
    utils_env_independence
  exact ⟨h1 _ _ "a@b.c", hT _ _ 3 rfl rfl⟩

lemma lastN_of_length_le {α : Type u} {n : Nat} {l : List α}
    (h : l.length ≤ n) : lastN n l = l := by
  unfold lastN
  rw [show l.length - n = 0 by omega]
  exact List.drop_zero l

lemma lastN_append_singleton {α : Type u} (n : Nat) (xs : List α) (e : α) :
    lastN n (lastN n xs ++ [e]) = lastN n (xs ++ [e]) := by
  rcases le_or_lt xs.length n with h | h
  · rw [lastN_of_length_le h]
  · rcases Nat.eq_zero_or_pos n with hn | hn
    · subst hn
      unfold lastN
      simp
    · have e1 : lastN n (lastN n xs ++ [e]) = (lastN n xs ++ [e]).drop 1 := by
        rw [lastN]
        congr 1
        simp [lastN, List.length_append, List.length_drop]
        omega
      have e2 : (lastN n xs ++ [e]).drop 1 =
          xs.drop (xs.length + 1 - n) ++ [e] := by
        rw [List.drop_append_of_le_length (by simp [lastN]; omega)]
        rw [lastN, List.drop_drop]
        have harg : xs.length - n + 1 = xs.length + 1 - n := by omega
        rw [harg]
      have e3 : lastN n (xs ++ [e]) = xs.drop (xs.length + 1 - n) ++ [e] := by
        rw [lastN, List.length_append]
        rw [List.drop_append_of_le_length (by simp; omega)]
        rfl
      rw [e1, e2, e3]

lemma logStep_pair (s r : LoggerState) (op : LogOp)
    (h1 : s.level = r.level) (h2 : s.logs = lastN maxLogs r.logs) :
    (logStep s op).level = (recStep r op).level ∧
    (logStep s op).logs = lastN maxLogs (recStep r op).logs := by
  cases op with
  | clear =>
    refine ⟨h1, ?_⟩
    simp [logStep, recStep, lastN]
  | setLevel lvl =>
    refine ⟨rfl, ?_⟩
    simpa [logStep, recStep] using h2
  | log lvl ts msg d src =>
    have hs : shouldLog s lvl = shouldLog r lvl := by
      simp [shouldLog, h1]
    by_cases hb : shouldLog r lvl = true
    · rw [logStep, recStep, hs, hb, if_pos rfl, if_pos rfl]
      refine ⟨h1, ?_⟩
      rw [addLog]
      simp only [h2]
      by_cases hl :
          (lastN maxLogs r.logs ++
            [({ timestamp := ts, level := lvl, message := msg,
                data := d, source := src } : LogEntry)]).length > maxLogs
      · rw [if_pos hl]
        exact lastN_append_singleton maxLogs r.logs _
      · rw [if_neg hl]
        rw [← lastN_append_singleton maxLogs r.logs]
        exact (lastN_of_length_le (by omega)).symm
    · have hb2 : shouldLog s lvl = false := by
        rw [hs]
        exact Bool.not_eq_true _ ▸ (by simpa using hb)
      rw [logStep, recStep, hb2]
      simp only [Bool.false_eq_true, if_false]
      rw [if_neg (by simp [hb])]
      exact ⟨h1, h2⟩

lemma logRun_pair (ops : List LogOp) :
    ∀ (s r : LoggerState), s.level = r.level →
      s.logs = lastN maxLogs r.logs →
      (logRun s ops).level = (recRun r ops).level ∧
      (logRun s ops).logs = lastN maxLogs (recRun r ops).logs := by
  induction ops with
  | nil => intro s r h1 h2; exact ⟨h1, h2⟩
  | cons op ops ih =>
    intro s r h1 h2
    have hstep := logStep_pair s r op h1 h2
    exact ih (logStep s op) (recStep r op) hstep.1 hstep.2

/-- C9: starting from an empty buffer at any threshold level, after
any sequence of level-method / `clearLogs` / `setLevel` operations the
logger's buffer holds at most `maxLogs = 1000` entries, and those
entries are exactly the most recent of the entries recorded since the
last clear (the unbounded reference recorder), in recording order;
and `getLogs(level)` is exactly the in-order filter of the buffer to
entries of at least that level (the buffer itself is not changed by
`getLogs`, which is pure in the model). -/
theorem logger_buffer_invariant (l0 : LogLevel) (ops : List LogOp) :
    (logRun { level := l0, logs := [] } ops).logs.length ≤ maxLogs ∧
    (logRun { level := l0, logs := [] } ops).logs =
      lastN maxLogs (recRun { level := l0, logs := [] } ops).logs ∧
    (∀ lvl, getLogs (logRun { level := l0, logs := [] } ops) (some lvl) =
      (logRun { level := l0, logs := [] } ops).logs.filter
        (fun e => lvl.toNat ≤ e.level.toNat)) := by
  have h := logRun_pair ops { level := l0, logs := [] }
    { level := l0, logs := [] } rfl (by simp [lastN])
  refine ⟨?_, h.2, fun lvl => rfl⟩
  rw [h.2]
  unfold lastN
  simp
  omega
